import Mathlib

/-!
# Verification of proof-of-lobster extrinsic building and event decoding

A shallow embedding of `src/app/src/extrinsic.rs` and the submission flows in
`src/app/src/screens/prompt.rs` / `src/app/src/screens/create.rs`.

Bytes are modelled as `Nat` values (< 256 whenever they come from real byte
producers), byte sequences as `List Nat`.  External cryptographic collaborators
(sr25519 signing, blake2-256, SS58 check-encoding) are modelled as opaque
function parameters, exactly as the Rust code treats them: the code under
verification never inspects their output beyond concatenating it.
-/

namespace PoL

/-- `n` little-endian bytes of `v` (the loop `for _ in 0..n { push (v as u8); v >>= 8 }`,
also `u32::encode` for `n = 4` and `u64::from_le_bytes`'s inverse for `n = 8`). -/
def leBytes : Nat → Nat → List Nat
  | 0, _ => []
  | n + 1, v => v % 256 :: leBytes n (v / 256)

/-- Read a little-endian byte list back as a number (`u64::from_le_bytes` on 8 bytes). -/
def fromLE : List Nat → Nat
  | [] => 0
  | b :: bs => b + 256 * fromLE bs

/-- Fuel-indexed byte-length computation; `byteLen` below supplies `v` itself as fuel. -/
def byteLenAux : Nat → Nat → Nat
  | 0, _ => 0
  | fuel + 1, v => if v = 0 then 0 else byteLenAux fuel (v / 256) + 1

/-- Number of bytes needed to store `v` (`(bits + 7) / 8`); this is
`size_of::<T>() - leading_zeros / 8` computed by the codec crate for `v > 0`. -/
def byteLen (v : Nat) : Nat := byteLenAux v v

/-- Modelled from the spec (§4.1) and the external `parity-scale-codec` crate that the
repository calls through `codec::Compact::encode_to` (`src/app/src/extrinsic.rs` lines
57, 60, 114, 117, 127): the four-mode SCALE compact encoding of an unsigned integer.
Mode `0b00`: one byte `(v << 2)`. Mode `0b01`: two little-endian bytes of `(v << 2) | 1`.
Mode `0b10`: four little-endian bytes of `(v << 2) | 2`. Mode `0b11`: a length byte
`((byteLen - 4) << 2) | 3` followed by `byteLen` little-endian bytes of `v`. -/
def compactEncode (v : Nat) : List Nat :=
  if v < 2 ^ 6 then [4 * v]
  else if v < 2 ^ 14 then leBytes 2 (4 * v + 1)
  else if v < 2 ^ 30 then leBytes 4 (4 * v + 2)
  else ((byteLen v - 4) * 4 + 3) :: leBytes (byteLen v) v

/-- Modelled from the spec (§4.1, §8): the decoder for the four-mode compact scheme,
the inverse reading of `compactEncode` (the repository itself only encodes; decoding
lives in the external codec crate).  Returns the decoded value and the remaining
bytes, or `none` when the input is too short. -/
def compactDecode (bs : List Nat) : Option (Nat × List Nat) :=
  match bs with
  | [] => none
  | b :: rest =>
    if b % 4 = 0 then some (b / 4, rest)
    else if b % 4 = 1 then
      match rest with
      | b1 :: rest2 => some ((b + 256 * b1) / 4, rest2)
      | [] => none
    else if b % 4 = 2 then
      match rest with
      | b1 :: b2 :: b3 :: rest2 =>
        some ((b + 256 * b1 + 65536 * b2 + 16777216 * b3) / 4, rest2)
      | _ => none
    else
      let n := b / 4 + 4
      if n ≤ rest.length then some (fromLE (rest.take n), rest.drop n) else none

theorem leBytes_length (n v : Nat) : (leBytes n v).length = n := by
  induction n generalizing v with
  | zero => rfl
  | succ n ih => simp [leBytes, ih]

theorem fromLE_leBytes (n v : Nat) (h : v < 2 ^ (8 * n)) :
    fromLE (leBytes n v) = v := by
  induction n generalizing v with
  | zero =>
    simp at h
    simp [h, leBytes, fromLE]
  | succ n ih =>
    have hlt : v / 256 < 2 ^ (8 * n) := by
      rw [Nat.div_lt_iff_lt_mul (by norm_num)]
      calc v < 2 ^ (8 * (n + 1)) := h
        _ = 2 ^ (8 * n) * 256 := by ring
    simp [leBytes, fromLE, ih _ hlt]
    omega

theorem byteLenAux_lt (fuel v : Nat) (h : v ≤ fuel) :
    v < 2 ^ (8 * byteLenAux fuel v) := by
  induction fuel generalizing v with
  | zero =>
    interval_cases v
    simp [byteLenAux]
  | succ fuel ih =>
    by_cases hv : v = 0
    · simp [byteLenAux, hv]
    · have hdiv : v / 256 ≤ fuel := by omega
      have := ih (v / 256) hdiv
      simp only [byteLenAux, hv, if_false]
      have : v < 256 * 2 ^ (8 * byteLenAux fuel (v / 256)) := by
        have h256 : v < 256 * (v / 256) + 256 := by omega
        calc v < 256 * (v / 256) + 256 := h256
          _ ≤ 256 * 2 ^ (8 * byteLenAux fuel (v / 256)) := by
              have := ih (v / 256) hdiv
              omega
      calc v < 256 * 2 ^ (8 * byteLenAux fuel (v / 256)) := this
        _ = 2 ^ (8 * (byteLenAux fuel (v / 256) + 1)) := by ring

theorem byteLenAux_zero (fuel : Nat) : byteLenAux fuel 0 = 0 := by
  cases fuel <;> simp [byteLenAux]

theorem byteLenAux_pos (fuel v : Nat) (hv : 0 < v) (h : v ≤ fuel) :
    0 < byteLenAux fuel v := by
  cases fuel with
  | zero => omega
  | succ fuel =>
    have hv0 : ¬ v = 0 := by omega
    simp [byteLenAux, hv0]

theorem byteLenAux_le (fuel v : Nat) (hv : 0 < v) (h : v ≤ fuel) :
    2 ^ (8 * (byteLenAux fuel v - 1)) ≤ v := by
  induction fuel generalizing v with
  | zero => omega
  | succ fuel ih =>
    have hv0 : ¬ v = 0 := by omega
    simp only [byteLenAux, hv0, if_false]
    by_cases hq : v / 256 = 0
    · simp [hq, byteLenAux_zero]
      omega
    · have hqf : v / 256 ≤ fuel := by omega
      have hlow := ih (v / 256) (by omega) hqf
      have hpos := byteLenAux_pos fuel (v / 256) (by omega) hqf
      have hmul : 256 * (v / 256) ≤ v := by omega
      have hexp : 2 ^ (8 * (byteLenAux fuel (v / 256) + 1 - 1)) =
          256 * 2 ^ (8 * (byteLenAux fuel (v / 256) - 1)) := by
        have h8 : 8 * (byteLenAux fuel (v / 256) + 1 - 1) =
            8 + 8 * (byteLenAux fuel (v / 256) - 1) := by omega
        rw [h8, pow_add]
        norm_num
      rw [hexp]
      calc 256 * 2 ^ (8 * (byteLenAux fuel (v / 256) - 1)) ≤ 256 * (v / 256) :=
            Nat.mul_le_mul_left 256 hlow
        _ ≤ v := hmul

theorem byteLen_lt (v : Nat) : v < 2 ^ (8 * byteLen v) :=
  byteLenAux_lt v v (Nat.le_refl v)

theorem byteLen_le (v : Nat) (hv : 0 < v) : 2 ^ (8 * (byteLen v - 1)) ≤ v :=
  byteLenAux_le v v hv (Nat.le_refl v)

theorem byteLen_ge_four (v : Nat) (hv : 2 ^ 30 ≤ v) : 4 ≤ byteLen v := by
  by_contra hlt
  have h4 : byteLen v ≤ 3 := by omega
  have := byteLen_lt v
  have : v < 2 ^ 24 := by
    calc v < 2 ^ (8 * byteLen v) := byteLen_lt v
      _ ≤ 2 ^ 24 := Nat.pow_le_pow_right (by norm_num) (by omega)
  omega

theorem compactDecode_compactEncode (v : Nat) (rest : List Nat) :
    compactDecode (compactEncode v ++ rest) = some (v, rest) := by
  by_cases h1 : v < 2 ^ 6
  · simp only [compactEncode, h1, if_true, List.cons_append, List.nil_append]
    simp [compactDecode]
  · by_cases h2 : v < 2 ^ 14
    · simp only [compactEncode, h1, h2, if_false, if_true]
      simp only [leBytes, List.cons_append, List.nil_append, compactDecode]
      rw [if_neg (by omega), if_pos (by omega)]
      simp only [Option.some.injEq, Prod.mk.injEq]
      norm_num at h1 h2
      exact ⟨by omega, trivial⟩
    · by_cases h3 : v < 2 ^ 30
      · simp only [compactEncode, h1, h2, h3, if_false, if_true]
        simp only [leBytes, List.cons_append, List.nil_append, compactDecode]
        rw [if_neg (by omega), if_neg (by omega), if_pos (by omega)]
        simp only [Option.some.injEq, Prod.mk.injEq]
        norm_num at h2 h3
        exact ⟨by omega, trivial⟩
      · simp only [compactEncode, h1, h2, h3, if_false, List.cons_append]
        have h4 : 4 ≤ byteLen v := byteLen_ge_four v (by omega)
        simp only [compactDecode]
        rw [if_neg (by omega), if_neg (by omega), if_neg (by omega)]
        have hlen : ((byteLen v - 4) * 4 + 3) / 4 + 4 = byteLen v := by omega
        have htake : List.take (byteLen v) (leBytes (byteLen v) v ++ rest) =
            leBytes (byteLen v) v := by
          have h := List.take_left (leBytes (byteLen v) v) rest
          rwa [leBytes_length] at h
        have hdrop : List.drop (byteLen v) (leBytes (byteLen v) v ++ rest) = rest := by
          have h := List.drop_left (leBytes (byteLen v) v) rest
          rwa [leBytes_length] at h
        have hlistlen : (leBytes (byteLen v) v ++ rest).length =
            byteLen v + rest.length := by
          simp [leBytes_length]
        rw [hlen, if_pos (by omega), htake, hdrop, fromLE_leBytes _ _ (byteLen_lt v)]

/-- Lowercase hex digit for a nibble, as produced by the `hex` crate. -/
def hexDigitChar (n : Nat) : Char :=
  if n < 10 then Char.ofNat (48 + n) else Char.ofNat (87 + n)

/-- The two lowercase hex characters of one byte. -/
def hexByteChars (b : Nat) : List Char :=
  [hexDigitChar (b / 16 % 16), hexDigitChar (b % 16)]

/-- `hex::encode`: lowercase hex string of a byte sequence. -/
def hexEncode (bs : List Nat) : String :=
  String.mk (List.flatten (bs.map hexByteChars))

/-- Value of one hex character, accepting both cases (as `hex::decode` does). -/
def hexDigitVal (c : Char) : Option Nat :=
  let n := c.toNat
  if 48 ≤ n ∧ n ≤ 57 then some (n - 48)
  else if 97 ≤ n ∧ n ≤ 102 then some (n - 87)
  else if 65 ≤ n ∧ n ≤ 70 then some (n - 55)
  else none

/-- Pairwise hex decoding: fails on odd length or any invalid character. -/
def hexDecodePairs : List Char → Option (List Nat)
  | [] => some []
  | [_] => none
  | c1 :: c2 :: rest =>
    match hexDigitVal c1, hexDigitVal c2 with
    | some h, some l =>
      match hexDecodePairs rest with
      | some bs => some ((16 * h + l) :: bs)
      | none => none
    | _, _ => none

/-- `hex::decode` on a string, `none` on any malformed input. -/
def hexDecode (s : String) : Option (List Nat) :=
  hexDecodePairs s.data

/-- Rust `str::trim_start_matches("0x")`: strip every leading repetition of `0x`. -/
def trimStart0x : List Char → List Char
  | '0' :: 'x' :: rest => trimStart0x rest
  | cs => cs

/-- Model of `subxt_signer::sr25519::Keypair`, the external key-material capability:
a 32-byte public key (`public_key().0`) and a signing operation producing a 64-byte
signature (`sign(...).0`).  Both are opaque to the code under verification, which only
concatenates their output, so they are ordinary function/field parameters here. -/
structure Keypair where
  publicKey : List Nat
  sign : List Nat → List Nat

/-- Lines 44-80 of `src/app/src/extrinsic.rs`: the signing payload, accumulated in
source order — call data, then the explicit extension bytes (era `0x00`,
`Compact(nonce)`, `Compact(0u128)` tip, metadata-hash mode `0x00`), then the implicit
extension bytes (`spec_version` and `transaction_version` as 4 little-endian bytes
each, the genesis hash twice, and the `0x00` for the absent metadata hash). -/
def signingPayload (call_data : List Nat) (nonce : Nat) (genesis_hash : List Nat)
    (spec_version transaction_version : Nat) : List Nat :=
  let payload : List Nat := []
  let payload := payload ++ call_data
  let payload := payload ++ [0x00]
  let payload := payload ++ compactEncode nonce
  let payload := payload ++ compactEncode 0
  let payload := payload ++ [0x00]
  let payload := payload ++ leBytes 4 spec_version
  let payload := payload ++ leBytes 4 transaction_version
  let payload := payload ++ genesis_hash
  let payload := payload ++ genesis_hash
  payload ++ [0x00]

/-- Lines 82-90 of `src/app/src/extrinsic.rs`: sign the payload, hashing it with
blake2-256 first exactly when it is longer than 256 bytes. -/
def signPayload (blake2_256 : List Nat → List Nat) (keypair : Keypair)
    (payload : List Nat) : List Nat :=
  if payload.length > 256 then keypair.sign (blake2_256 payload)
  else keypair.sign payload

/-- Lines 92-123 of `src/app/src/extrinsic.rs`: the extrinsic body, accumulated in
source order — version tag `0x84`, address tag `0x00` + public key, signature tag
`0x01` + signature, the explicit extension bytes again, then the call data. -/
def extrinsicBody (call_data : List Nat) (nonce : Nat)
    (public_key signature : List Nat) : List Nat :=
  let extrinsic : List Nat := []
  let extrinsic := extrinsic ++ [0x84]
  let extrinsic := extrinsic ++ [0x00]
  let extrinsic := extrinsic ++ public_key
  let extrinsic := extrinsic ++ [0x01]
  let extrinsic := extrinsic ++ signature
  let extrinsic := extrinsic ++ [0x00]
  let extrinsic := extrinsic ++ compactEncode nonce
  let extrinsic := extrinsic ++ compactEncode 0
  let extrinsic := extrinsic ++ [0x00]
  extrinsic ++ call_data

/-- Lines 34-131 of `src/app/src/extrinsic.rs`: `build_signed_extrinsic`.  The length
prefix is `Compact(extrinsic.len() as u32)`; the `as u32` cast truncates, hence the
`% 2 ^ 32`.  The function body has no fallible step and ends in `Ok(...)`, modelled by
the unconditional `Except.ok`. -/
def build_signed_extrinsic (blake2_256 : List Nat → List Nat) (call_data : List Nat)
    (nonce : Nat) (genesis_hash : List Nat) (spec_version transaction_version : Nat)
    (keypair : Keypair) : Except String String :=
  let payload := signingPayload call_data nonce genesis_hash spec_version
    transaction_version
  let signature := signPayload blake2_256 keypair payload
  let extrinsic := extrinsicBody call_data nonce keypair.publicKey signature
  let final_extrinsic := compactEncode (extrinsic.length % 2 ^ 32) ++ extrinsic
  Except.ok ("0x" ++ hexEncode final_extrinsic)

/-- Claim-side definition (spec §4.2, claim C1): the explicit extension bytes. -/
def explicitBytesSpec (nonce : Nat) : List Nat :=
  [0x00] ++ compactEncode nonce ++ compactEncode 0 ++ [0x00]

/-- Claim-side definition (spec §4.2, claim C1): the implicit extension bytes. -/
def implicitBytesSpec (genesis_hash : List Nat)
    (spec_version transaction_version : Nat) : List Nat :=
  leBytes 4 spec_version ++ leBytes 4 transaction_version ++ genesis_hash ++
    genesis_hash ++ [0x00]

/-- Minimal model of `serde_json::Value`, sufficient for the event parsers: they only
call `.get("bytes")` and `.as_str()` on the event's `data` value.  String values,
objects with ordered fields, and a collapsed `other` for every other JSON shape. -/
inductive Json where
  | str (s : String)
  | obj (fields : List (String × Json))
  | other

/-- `serde_json::Value::get(key)`: field lookup on objects, `None` on anything else. -/
def Json.get (j : Json) (key : String) : Option Json :=
  match j with
  | .obj fields => (fields.find? (fun kv => kv.1 == key)).map (fun kv => kv.2)
  | _ => none

/-- `serde_json::Value::as_str()`: the string payload of a string value. -/
def Json.asStr (j : Json) : Option String :=
  match j with
  | .str s => some s
  | _ => none

/-- `crate::client::ChainEvent` (src/app/src/client.rs lines 74-78). -/
structure ChainEvent where
  pallet : String
  variant : String
  data : Json

/-- Lines 135-151 of `src/app/src/extrinsic.rs`: `parse_agent_registered_event`.
Scans the events in order; on the first `Agents` / `AgentRegistered` event whose
`data.bytes` is a string, hex-decodes it — the `.ok()?` makes a hex failure return
`none` for the whole function — and, when at least 32 bytes came out, returns the
SS58 check-encoding of the first 32 bytes.  The SS58 encoding
(`sp_core::sr25519::Public::from_raw(...).to_ss58check()`) is an external
collaborator, passed in as `to_ss58check`. -/
def parse_agent_registered_event (to_ss58check : List Nat → String) :
    List ChainEvent → Option String
  | [] => none
  | event :: rest =>
    if event.pallet = "Agents" ∧ event.variant = "AgentRegistered" then
      match (event.data.get ("bytes")).bind Json.asStr with
      | some bytes_hex =>
        match hexDecode bytes_hex with
        | none => none
        | some bytes =>
          if 32 ≤ bytes.length then some (to_ss58check (bytes.take 32))
          else parse_agent_registered_event to_ss58check rest
      | none => parse_agent_registered_event to_ss58check rest
    else parse_agent_registered_event to_ss58check rest

/-- Lines 154-167 of `src/app/src/extrinsic.rs`: `parse_agent_call_queued_event`.
Same scan for `Agents` / `AgentCallQueued`; the run id is
`u64::from_le_bytes(bytes[0..8])` of the decoded blob when it has at least 8 bytes. -/
def parse_agent_call_queued_event : List ChainEvent → Option Nat
  | [] => none
  | event :: rest =>
    if event.pallet = "Agents" ∧ event.variant = "AgentCallQueued" then
      match (event.data.get ("bytes")).bind Json.asStr with
      | some bytes_hex =>
        match hexDecode bytes_hex with
        | none => none
        | some bytes =>
          if 8 ≤ bytes.length then some (fromLE (bytes.take 8))
          else parse_agent_call_queued_event rest
      | none => parse_agent_call_queued_event rest
    else parse_agent_call_queued_event rest

/-- Outcome of a submission flow's local phase: either an error message was reported
and the flow returned, or a signed extrinsic hex string was produced (the point where
the flow hands off to the network collaborator). -/
inductive SubmitOutcome where
  | failed (msg : String)
  | built (signed_hex : String)
deriving DecidableEq

/-- Lines 204-251 of `src/app/src/screens/prompt.rs` (`start_prompt_submission`),
from the point where the remote build result is in hand: decode the call-data hex
(after `trim_start_matches("0x")`), decode the genesis-hash hex requiring exactly
32 bytes, obtain the wallet keypair, then call `build_signed_extrinsic`.  Each
failing step sends a `PromptFailed` message and returns, modelled by `.failed`. -/
def start_prompt_submission (blake2_256 : List Nat → List Nat)
    (call_data_hex genesis_hash : String)
    (nonce spec_version transaction_version : Nat)
    (keypair_result : Except String Keypair) : SubmitOutcome :=
  match hexDecode (String.mk (trimStart0x call_data_hex.data)) with
  | none => .failed ("Invalid call data")
  | some call_data =>
    match hexDecode (String.mk (trimStart0x genesis_hash.data)) with
    | some d =>
      if d.length = 32 then
        match keypair_result with
        | .error _ => .failed ("Wallet error")
        | .ok keypair =>
          match build_signed_extrinsic blake2_256 call_data nonce d spec_version
              transaction_version keypair with
          | .ok signed_hex => .built signed_hex
          | .error _ => .failed ("Signing failed")
      else .failed ("Invalid genesis hash")
    | none => .failed ("Invalid genesis hash")

/-- Lines 807-878 of `src/app/src/screens/create.rs` (the deploy submission task in
`CreateScreen`): identical decode/keypair/build sequence, reporting `DeployFailed`
messages instead. -/
def start_deploy_submission (blake2_256 : List Nat → List Nat)
    (call_data_hex genesis_hash : String)
    (nonce spec_version transaction_version : Nat)
    (keypair_result : Except String Keypair) : SubmitOutcome :=
  match hexDecode (String.mk (trimStart0x call_data_hex.data)) with
  | none => .failed ("Invalid call data")
  | some call_data =>
    match hexDecode (String.mk (trimStart0x genesis_hash.data)) with
    | some d =>
      if d.length = 32 then
        match keypair_result with
        | .error _ => .failed ("Wallet error")
        | .ok keypair =>
          match build_signed_extrinsic blake2_256 call_data nonce d spec_version
              transaction_version keypair with
          | .ok signed_hex => .built signed_hex
          | .error _ => .failed ("Signing failed")
      else .failed ("Invalid genesis hash")
    | none => .failed ("Invalid genesis hash")

theorem signingPayload_eq_concat (call_data : List Nat) (nonce : Nat)
    (genesis_hash : List Nat) (spec_version transaction_version : Nat) :
    signingPayload call_data nonce genesis_hash spec_version transaction_version =
      call_data ++ explicitBytesSpec nonce ++
        implicitBytesSpec genesis_hash spec_version transaction_version := by
  simp [signingPayload, explicitBytesSpec, implicitBytesSpec, List.append_assoc]

/-- C1: for every call_data, nonce, genesis_hash, spec_version, transaction_version
and keypair, the byte sequence `build_signed_extrinsic` submits to the signing step
(before the over-256-bytes hash rule) equals
`call_data ++ explicitBytes ++ implicitBytes` in exactly that order, where
`explicitBytes = [0x00] ++ compactEncode nonce ++ compactEncode 0 ++ [0x00]` and
`implicitBytes = spec_version (4 LE bytes) ++ transaction_version (4 LE bytes) ++
genesis_hash ++ genesis_hash ++ [0x00]`. -/
theorem signing_payload_is_call_explicit_implicit
    (blake2_256 : List Nat → List Nat) (call_data : List Nat) (nonce : Nat)
    (genesis_hash : List Nat) (spec_version transaction_version : Nat)
    (keypair : Keypair) :
    signingPayload call_data nonce genesis_hash spec_version transaction_version =
      call_data ++ explicitBytesSpec nonce ++
        implicitBytesSpec genesis_hash spec_version transaction_version ∧
    build_signed_extrinsic blake2_256 call_data nonce genesis_hash spec_version
        transaction_version keypair =
      Except.ok ("0x" ++ hexEncode (compactEncode
        ((extrinsicBody call_data nonce keypair.publicKey
          (signPayload blake2_256 keypair
            (call_data ++ explicitBytesSpec nonce ++
              implicitBytesSpec genesis_hash spec_version
                transaction_version))).length % 2 ^ 32) ++
        extrinsicBody call_data nonce keypair.publicKey
          (signPayload blake2_256 keypair
            (call_data ++ explicitBytesSpec nonce ++
              implicitBytesSpec genesis_hash spec_version transaction_version)))) := by
  have hp := signingPayload_eq_concat call_data nonce genesis_hash spec_version
    transaction_version
  refine ⟨hp, ?_⟩
  rw [build_signed_extrinsic, hp]

/-- C4: the compact encoding used for the nonce, the tip and the body-length prefix
follows the four magnitude-selected modes, for inputs up to 128-bit width; in mode
`0b11` the length byte is `(byteLen - 4) << 2 | 0b11` where `byteLen` is the exact
number of bytes needed for the value (between 4 and 16). -/
theorem compactEncode_four_modes (v : Nat) (h : v < 2 ^ 128) :
    (v < 2 ^ 6 → compactEncode v = [4 * v]) ∧
    (2 ^ 6 ≤ v → v < 2 ^ 14 → compactEncode v = leBytes 2 (4 * v + 1)) ∧
    (2 ^ 14 ≤ v → v < 2 ^ 30 → compactEncode v = leBytes 4 (4 * v + 2)) ∧
    (2 ^ 30 ≤ v →
      compactEncode v =
        ((byteLen v - 4) * 4 + 3) :: leBytes (byteLen v) v ∧
      2 ^ (8 * (byteLen v - 1)) ≤ v ∧ v < 2 ^ (8 * byteLen v) ∧
      4 ≤ byteLen v ∧ byteLen v ≤ 16) := by
  refine ⟨?_, ?_, ?_, ?_⟩
  · intro h6
    rw [compactEncode, if_pos h6]
  · intro h6 h14
    rw [compactEncode, if_neg (by omega), if_pos h14]
  · intro h14 h30
    rw [compactEncode, if_neg (by omega), if_neg (by omega), if_pos h30]
  · intro h30
    have h4 : 4 ≤ byteLen v := byteLen_ge_four v h30
    have h16 : byteLen v ≤ 16 := by
      by_contra h17
      have hle := byteLen_le v (by omega)
      have : 2 ^ 128 ≤ 2 ^ (8 * (byteLen v - 1)) :=
        Nat.pow_le_pow_right (by norm_num) (by omega)
      omega
    refine ⟨?_, byteLen_le v (by omega), byteLen_lt v, h4, h16⟩
    rw [compactEncode, if_neg (by omega), if_neg (by omega), if_neg (by omega)]

/-- Witness for C4: mode `0b11` at the boundary value `2 ^ 30`. -/
theorem compactEncode_four_modes_witness :
    (2 ^ 30 : Nat) < 2 ^ 128 ∧
    (compactEncode (2 ^ 30) =
        ((byteLen (2 ^ 30) - 4) * 4 + 3) :: leBytes (byteLen (2 ^ 30)) (2 ^ 30) ∧
      2 ^ (8 * (byteLen (2 ^ 30) - 1)) ≤ 2 ^ 30 ∧
      (2 ^ 30 : Nat) < 2 ^ (8 * byteLen (2 ^ 30)) ∧
      4 ≤ byteLen (2 ^ 30) ∧ byteLen (2 ^ 30) ≤ 16) :=
  ⟨by decide, (compactEncode_four_modes (2 ^ 30) (by decide)).2.2.2 (by decide)⟩

/-- C5: decoding the compact encoding of any value representable in 64 bits yields
the value back, with no bytes left over. -/
theorem compact_decode_encode_u64 (x : Nat) (h : x < 2 ^ 64) :
    compactDecode (compactEncode x) = some (x, []) := by
  simpa using compactDecode_compactEncode x []

/-- Witness for C5 at `u64::MAX`. -/
theorem compact_decode_encode_u64_witness :
    (2 ^ 64 - 1 : Nat) < 2 ^ 64 ∧
    compactDecode (compactEncode (2 ^ 64 - 1)) = some (2 ^ 64 - 1, []) :=
  ⟨by decide, compact_decode_encode_u64 (2 ^ 64 - 1) (by decide)⟩

/-- C10: `build_signed_extrinsic` is infallible — despite its `Result` return type it
returns `Ok` with a hex string on every input; no error path exists in its body. -/
theorem build_signed_extrinsic_infallible
    (blake2_256 : List Nat → List Nat) (call_data : List Nat) (nonce : Nat)
    (genesis_hash : List Nat) (spec_version transaction_version : Nat)
    (keypair : Keypair) :
    ∃ hex : String,
      build_signed_extrinsic blake2_256 call_data nonce genesis_hash spec_version
        transaction_version keypair = Except.ok hex ∧
      ∃ body : String, hex = "0x" ++ body :=
  ⟨_, rfl, _, rfl⟩

theorem flatten_map_hexByteChars_length (bs : List Nat) :
    (List.flatten (bs.map hexByteChars)).length = 2 * bs.length := by
  induction bs with
  | nil => rfl
  | cons b bs ih =>
    simp [hexByteChars] at *
    omega

theorem hexEncode_length (bs : List Nat) : (hexEncode bs).length = 2 * bs.length :=
  flatten_map_hexByteChars_length bs

theorem extrinsicBody_length (cd : List Nat) (n : Nat) (pk sig : List Nat) :
    (extrinsicBody cd n pk sig).length =
      6 + pk.length + sig.length + (compactEncode n).length + cd.length := by
  have h0 : (compactEncode 0).length = 1 := by decide
  simp [extrinsicBody, h0]
  omega

/-- C3: the bytes passed to the keypair's sign operation are the blake2-256 digest of
the signing payload when the payload is strictly longer than 256 bytes, and the raw
payload itself when it is at most 256 bytes (including exactly 256). -/
theorem sign_hash_rule (blake2_256 : List Nat → List Nat) (call_data : List Nat)
    (nonce : Nat) (genesis_hash : List Nat) (spec_version transaction_version : Nat)
    (keypair : Keypair) :
    (256 < (signingPayload call_data nonce genesis_hash spec_version
        transaction_version).length →
      build_signed_extrinsic blake2_256 call_data nonce genesis_hash spec_version
          transaction_version keypair =
        Except.ok ("0x" ++ hexEncode (compactEncode
          ((extrinsicBody call_data nonce keypair.publicKey
            (keypair.sign (blake2_256 (signingPayload call_data nonce genesis_hash
              spec_version transaction_version)))).length % 2 ^ 32) ++
          extrinsicBody call_data nonce keypair.publicKey
            (keypair.sign (blake2_256 (signingPayload call_data nonce genesis_hash
              spec_version transaction_version)))))) ∧
    ((signingPayload call_data nonce genesis_hash spec_version
        transaction_version).length ≤ 256 →
      build_signed_extrinsic blake2_256 call_data nonce genesis_hash spec_version
          transaction_version keypair =
        Except.ok ("0x" ++ hexEncode (compactEncode
          ((extrinsicBody call_data nonce keypair.publicKey
            (keypair.sign (signingPayload call_data nonce genesis_hash
              spec_version transaction_version))).length % 2 ^ 32) ++
          extrinsicBody call_data nonce keypair.publicKey
            (keypair.sign (signingPayload call_data nonce genesis_hash
              spec_version transaction_version))))) := by
  constructor
  · intro hlen
    rw [build_signed_extrinsic, signPayload, if_pos (by omega)]
  · intro hlen
    rw [build_signed_extrinsic, signPayload, if_neg (by omega)]

/-- Concrete blake2-256 stand-in for witnesses (any function works: the builder never
inspects it). -/
def wBlake : List Nat → List Nat := fun bs => List.replicate 32 (bs.length % 256)

/-- Concrete keypair for witnesses. -/
def wKeypair : Keypair :=
  { publicKey := List.replicate 32 2
    sign := fun bs => List.replicate 64 (bs.length % 256) }

/-- Concrete 32-byte genesis hash for witnesses. -/
def wGenesis : List Nat := List.replicate 32 9

/-- 179-byte call data: yields a signing payload of exactly 256 bytes (raw branch). -/
def wCall179 : List Nat := List.replicate 179 5

/-- 180-byte call data: yields a signing payload of 257 bytes (hash branch). -/
def wCall180 : List Nat := List.replicate 180 5

set_option maxRecDepth 4000 in
/-- Witness for C3 at both boundary sizes: a 256-byte payload is signed raw, a
257-byte payload is hashed first. -/
theorem sign_hash_rule_witness :
    ((signingPayload wCall179 0 wGenesis 1 1).length ≤ 256 ∧
      build_signed_extrinsic wBlake wCall179 0 wGenesis 1 1 wKeypair =
        Except.ok ("0x" ++ hexEncode (compactEncode
          ((extrinsicBody wCall179 0 wKeypair.publicKey
            (wKeypair.sign (signingPayload wCall179 0 wGenesis 1 1))).length % 2 ^ 32) ++
          extrinsicBody wCall179 0 wKeypair.publicKey
            (wKeypair.sign (signingPayload wCall179 0 wGenesis 1 1))))) ∧
    (256 < (signingPayload wCall180 0 wGenesis 1 1).length ∧
      build_signed_extrinsic wBlake wCall180 0 wGenesis 1 1 wKeypair =
        Except.ok ("0x" ++ hexEncode (compactEncode
          ((extrinsicBody wCall180 0 wKeypair.publicKey
            (wKeypair.sign (wBlake (signingPayload wCall180 0 wGenesis 1 1)))).length % 2 ^ 32) ++
          extrinsicBody wCall180 0 wKeypair.publicKey
            (wKeypair.sign (wBlake (signingPayload wCall180 0 wGenesis 1 1)))))) :=
  ⟨⟨by decide,
    (sign_hash_rule wBlake wCall179 0 wGenesis 1 1 wKeypair).2 (by decide)⟩,
   ⟨by decide,
    (sign_hash_rule wBlake wCall180 0 wGenesis 1 1 wKeypair).1 (by decide)⟩⟩

/-- C2 (amended): for every input whose extrinsic body is shorter than `2 ^ 32` bytes
(the `as u32` cast on `extrinsic.len()` truncates beyond that), the returned string is
`0x` followed by the lowercase hex of `compactEncode bodyLength ++ body`; the body is
`[0x84] ++ [0x00] ++ publicKey ++ [0x01] ++ signature ++ explicitBytes ++ call_data`;
`bodyLength` is the exact byte length of the body; and re-parsing the compact prefix
of the assembled extrinsic recovers exactly that body length and body. -/
theorem extrinsic_assembly (blake2_256 : List Nat → List Nat) (call_data : List Nat)
    (nonce : Nat) (genesis_hash : List Nat) (spec_version transaction_version : Nat)
    (keypair : Keypair)
    (h : (extrinsicBody call_data nonce keypair.publicKey
      (signPayload blake2_256 keypair (signingPayload call_data nonce genesis_hash
        spec_version transaction_version))).length < 2 ^ 32) :
    build_signed_extrinsic blake2_256 call_data nonce genesis_hash spec_version
        transaction_version keypair =
      Except.ok ("0x" ++ hexEncode (compactEncode
        (extrinsicBody call_data nonce keypair.publicKey
          (signPayload blake2_256 keypair (signingPayload call_data nonce genesis_hash
            spec_version transaction_version))).length ++
        extrinsicBody call_data nonce keypair.publicKey
          (signPayload blake2_256 keypair (signingPayload call_data nonce genesis_hash
            spec_version transaction_version)))) ∧
    extrinsicBody call_data nonce keypair.publicKey
        (signPayload blake2_256 keypair (signingPayload call_data nonce genesis_hash
          spec_version transaction_version)) =
      [0x84] ++ [0x00] ++ keypair.publicKey ++ [0x01] ++
        signPayload blake2_256 keypair (signingPayload call_data nonce genesis_hash
          spec_version transaction_version) ++ explicitBytesSpec nonce ++ call_data ∧
    compactDecode (compactEncode
        (extrinsicBody call_data nonce keypair.publicKey
          (signPayload blake2_256 keypair (signingPayload call_data nonce genesis_hash
            spec_version transaction_version))).length ++
        extrinsicBody call_data nonce keypair.publicKey
          (signPayload blake2_256 keypair (signingPayload call_data nonce genesis_hash
            spec_version transaction_version))) =
      some ((extrinsicBody call_data nonce keypair.publicKey
          (signPayload blake2_256 keypair (signingPayload call_data nonce genesis_hash
            spec_version transaction_version))).length,
        extrinsicBody call_data nonce keypair.publicKey
          (signPayload blake2_256 keypair (signingPayload call_data nonce genesis_hash
            spec_version transaction_version))) := by
  refine ⟨?_, ?_, compactDecode_compactEncode _ _⟩
  · rw [build_signed_extrinsic, Nat.mod_eq_of_lt h]
  · simp [extrinsicBody, explicitBytesSpec, List.append_assoc]

/-- The spec's fixed test-vector call data `[0x00, 0x01, 0x02]`. -/
def wCall3 : List Nat := [0x00, 0x01, 0x02]

set_option maxRecDepth 4000 in
/-- Witness for C2 (amended) on the spec's fixed vector. -/
theorem extrinsic_assembly_witness :
    (extrinsicBody wCall3 0 wKeypair.publicKey
      (signPayload wBlake wKeypair
        (signingPayload wCall3 0 wGenesis 1 1))).length < 2 ^ 32 ∧
    (build_signed_extrinsic wBlake wCall3 0 wGenesis 1 1 wKeypair =
      Except.ok ("0x" ++ hexEncode (compactEncode
        (extrinsicBody wCall3 0 wKeypair.publicKey
          (signPayload wBlake wKeypair
            (signingPayload wCall3 0 wGenesis 1 1))).length ++
        extrinsicBody wCall3 0 wKeypair.publicKey
          (signPayload wBlake wKeypair
            (signingPayload wCall3 0 wGenesis 1 1)))) ∧
    extrinsicBody wCall3 0 wKeypair.publicKey
        (signPayload wBlake wKeypair (signingPayload wCall3 0 wGenesis 1 1)) =
      [0x84] ++ [0x00] ++ wKeypair.publicKey ++ [0x01] ++
        signPayload wBlake wKeypair (signingPayload wCall3 0 wGenesis 1 1) ++
        explicitBytesSpec 0 ++ wCall3 ∧
    compactDecode (compactEncode
        (extrinsicBody wCall3 0 wKeypair.publicKey
          (signPayload wBlake wKeypair
            (signingPayload wCall3 0 wGenesis 1 1))).length ++
        extrinsicBody wCall3 0 wKeypair.publicKey
          (signPayload wBlake wKeypair
            (signingPayload wCall3 0 wGenesis 1 1))) =
      some ((extrinsicBody wCall3 0 wKeypair.publicKey
          (signPayload wBlake wKeypair
            (signingPayload wCall3 0 wGenesis 1 1))).length,
        extrinsicBody wCall3 0 wKeypair.publicKey
          (signPayload wBlake wKeypair
            (signingPayload wCall3 0 wGenesis 1 1)))) :=
  ⟨by decide, extrinsic_assembly wBlake wCall3 0 wGenesis 1 1 wKeypair (by decide)⟩

/-- `2 ^ 32` bytes of call data: pushes the body length past the `u32` range. -/
def bigCall : List Nat := List.replicate (2 ^ 32) 0

/-- Keypair for the C2 counterexample. -/
def cxKeypair : Keypair :=
  { publicKey := List.replicate 32 0, sign := fun _ => List.replicate 64 0 }

/-- Blake2-256 stand-in for the C2 counterexample. -/
def cxBlake : List Nat → List Nat := fun _ => List.replicate 32 0

theorem cx_sig : signPayload cxBlake cxKeypair
    (signingPayload bigCall 0 (List.replicate 32 0) 0 0) = List.replicate 64 0 := by
  rw [signPayload]
  split <;> rfl

theorem cx_body_length :
    (extrinsicBody bigCall 0 cxKeypair.publicKey
      (signPayload cxBlake cxKeypair
        (signingPayload bigCall 0 (List.replicate 32 0) 0 0))).length =
      103 + 2 ^ 32 := by
  rw [extrinsicBody_length, cx_sig]
  have hbig : bigCall.length = 2 ^ 32 := by
    rw [bigCall, List.length_replicate]
  have hpk : (cxKeypair.publicKey).length = 32 := by decide
  have hsig : (List.replicate 64 (0 : Nat)).length = 64 := by decide
  have h0 : (compactEncode 0).length = 1 := by decide
  rw [hbig, hpk, hsig, h0]

/-- Counterexample to C2 as stated: on `2 ^ 32` bytes of call data the body is
`2 ^ 32 + 103` bytes long, `extrinsic.len() as u32` truncates it to `103`, and the
output is NOT `0x` ++ hex of `compactEncode (exact body length) ++ body` — the two
strings already differ in length (a 2-byte vs a 6-byte compact prefix). -/
theorem extrinsic_length_prefix_cx :
    ¬ (build_signed_extrinsic cxBlake bigCall 0 (List.replicate 32 0) 0 0 cxKeypair =
      Except.ok ("0x" ++ hexEncode (compactEncode
        (extrinsicBody bigCall 0 cxKeypair.publicKey
          (signPayload cxBlake cxKeypair
            (signingPayload bigCall 0 (List.replicate 32 0) 0 0))).length ++
        extrinsicBody bigCall 0 cxKeypair.publicKey
          (signPayload cxBlake cxKeypair
            (signingPayload bigCall 0 (List.replicate 32 0) 0 0))))) := by
  intro heq
  rw [build_signed_extrinsic] at heq
  have hs := Except.ok.inj heq
  have hlen := congrArg String.length hs
  rw [String.length_append, String.length_append, hexEncode_length, hexEncode_length,
    List.length_append, List.length_append, cx_body_length] at hlen
  have h1 : (103 + 2 ^ 32) % 2 ^ 32 = 103 := by norm_num
  rw [h1] at hlen
  have h2 : (compactEncode 103).length = 2 := by decide
  have h3 : (compactEncode (103 + 2 ^ 32)).length = 6 := by decide
  omega

theorem parse_registered_skip (to_ss58check : List Nat → String) (e : ChainEvent)
    (rest : List ChainEvent)
    (h : ¬ (e.pallet = "Agents" ∧ e.variant = "AgentRegistered")) :
    parse_agent_registered_event to_ss58check (e :: rest) =
      parse_agent_registered_event to_ss58check rest := by
  simp only [parse_agent_registered_event, if_neg h]

/-- C6: scanning in order, the first `Agents` / `AgentRegistered` event (here: one
whose blob is valid hex of at least 32 bytes) determines the result — the SS58
check-encoding of the first 32 decoded bytes; events with any other pallet/variant
pair are ignored, and later events (matching or not) cannot change the result. -/
theorem parse_registered_first_match (to_ss58check : List Nat → String)
    (pre post : List ChainEvent) (e : ChainEvent) (hx : String) (bs : List Nat)
    (hpre : ∀ e2 ∈ pre, ¬ (e2.pallet = "Agents" ∧ e2.variant = "AgentRegistered"))
    (hp : e.pallet = "Agents") (hv : e.variant = "AgentRegistered")
    (hs : (e.data.get ("bytes")).bind Json.asStr = some hx)
    (hd : hexDecode hx = some bs) (hlen : 32 ≤ bs.length) :
    parse_agent_registered_event to_ss58check (pre ++ e :: post) =
      some (to_ss58check (bs.take 32)) := by
  induction pre with
  | nil =>
    simp only [List.nil_append]
    simp [parse_agent_registered_event, hp, hv, hs, hd, hlen]
  | cons e2 pre ih =>
    have h2 := hpre e2 (List.mem_cons_self e2 pre)
    rw [List.cons_append, parse_registered_skip to_ss58check e2 _ h2]
    exact ih (fun e3 h3 => hpre e3 (List.mem_cons_of_mem e2 h3))

/-- Concrete SS58 stand-in for parser witnesses. -/
def wSs58 : List Nat → String := fun bs => hexEncode bs

/-- A non-matching chain event. -/
def evOther : ChainEvent :=
  { pallet := "System", variant := "ExtrinsicSuccess", data := Json.other }

/-- Hex of 32 zero bytes. -/
def hex32zeros : String :=
  "0000000000000000000000000000000000000000000000000000000000000000"

/-- A matching AgentRegistered event carrying 32 zero bytes. -/
def evRegZero : ChainEvent :=
  { pallet := "Agents", variant := "AgentRegistered"
    data := Json.obj [ ("bytes", Json.str hex32zeros) ] }

/-- A second matching AgentRegistered event with a different blob. -/
def evRegOther : ChainEvent :=
  { pallet := "Agents", variant := "AgentRegistered"
    data := Json.obj [ ("bytes", Json.str
      "ff00000000000000000000000000000000000000000000000000000000000000") ] }

/-- Witness for C6: a skipped foreign event, then the 32-zero-byte registration
event, then a second matching event that is never reached. -/
theorem parse_registered_first_match_witness :
    parse_agent_registered_event wSs58 ([evOther] ++ evRegZero :: [evRegOther]) =
      some (wSs58 ((List.replicate 32 0).take 32)) :=
  parse_registered_first_match wSs58 [evOther] [evRegOther] evRegZero hex32zeros
    (List.replicate 32 0) (by decide) (by decide) (by decide) (by decide) (by decide)
    (by decide)

theorem parse_queued_skip (e : ChainEvent) (rest : List ChainEvent)
    (h : ¬ (e.pallet = "Agents" ∧ e.variant = "AgentCallQueued")) :
    parse_agent_call_queued_event (e :: rest) =
      parse_agent_call_queued_event rest := by
  simp only [parse_agent_call_queued_event, if_neg h]

theorem parse_queued_none (events : List ChainEvent)
    (h : ∀ e ∈ events, ¬ (e.pallet = "Agents" ∧ e.variant = "AgentCallQueued")) :
    parse_agent_call_queued_event events = none := by
  induction events with
  | nil => rfl
  | cons e rest ih =>
    rw [parse_queued_skip e rest (h e (List.mem_cons_self e rest))]
    exact ih (fun e2 h2 => h e2 (List.mem_cons_of_mem e h2))

/-- C7: the run id returned is the little-endian u64 of the first 8 decoded bytes of
the first `Agents` / `AgentCallQueued` event; and when no event matches that
pallet/variant pair (including the empty list), the parser returns `none`. -/
theorem parse_queued_first_match_or_none
    (pre post events : List ChainEvent) (e : ChainEvent) (hx : String) (bs : List Nat)
    (hpre : ∀ e2 ∈ pre, ¬ (e2.pallet = "Agents" ∧ e2.variant = "AgentCallQueued"))
    (hp : e.pallet = "Agents") (hv : e.variant = "AgentCallQueued")
    (hs : (e.data.get ("bytes")).bind Json.asStr = some hx)
    (hd : hexDecode hx = some bs) (hlen : 8 ≤ bs.length)
    (hnone : ∀ e2 ∈ events, ¬ (e2.pallet = "Agents" ∧ e2.variant = "AgentCallQueued")) :
    parse_agent_call_queued_event (pre ++ e :: post) = some (fromLE (bs.take 8)) ∧
    parse_agent_call_queued_event events = none := by
  constructor
  · induction pre with
    | nil =>
      simp only [List.nil_append]
      simp [parse_agent_call_queued_event, hp, hv, hs, hd, hlen]
    | cons e2 pre ih =>
      have h2 := hpre e2 (List.mem_cons_self e2 pre)
      rw [List.cons_append, parse_queued_skip e2 _ h2]
      exact ih (fun e3 h3 => hpre e3 (List.mem_cons_of_mem e2 h3))
  · exact parse_queued_none events hnone

/-- A matching AgentCallQueued event whose blob starts with the LE bytes of 258. -/
def evQueued : ChainEvent :=
  { pallet := "Agents", variant := "AgentCallQueued"
    data := Json.obj [ ("bytes", Json.str "020100000000000000ab") ] }

/-- Witness for C7: the run id 258 = 0x0102 little-endian, extracted after a skipped
foreign event; and the same list without the queued event yields `none`. -/
theorem parse_queued_first_match_or_none_witness :
    parse_agent_call_queued_event ([evOther] ++ evQueued :: []) =
      some (fromLE (([2, 1, 0, 0, 0, 0, 0, 0, 0, 171] : List Nat).take 8)) ∧
    parse_agent_call_queued_event [evOther, evRegZero] = none :=
  parse_queued_first_match_or_none [evOther] [] [evOther, evRegZero] evQueued
    ("020100000000000000ab") [2, 1, 0, 0, 0, 0, 0, 0, 0, 171]
    (by decide) (by decide) (by decide) (by decide) (by decide) (by decide) (by decide)

/-- C9: in both parsers, a matching event whose `bytes` string is invalid hex makes
the whole parse return `none` immediately (the `.ok()?`), regardless of later events;
whereas a matching event with no string `bytes` field, or one whose decoded blob is
shorter than 32 (resp. 8) bytes, is skipped and the scan continues. -/
theorem parsers_error_handling (to_ss58check : List Nat → String) (e : ChainEvent)
    (rest : List ChainEvent) (hx : String) (bs : List Nat) :
    (e.pallet = "Agents" → e.variant = "AgentRegistered" →
      (e.data.get ("bytes")).bind Json.asStr = some hx → hexDecode hx = none →
      parse_agent_registered_event to_ss58check (e :: rest) = none) ∧
    (e.pallet = "Agents" → e.variant = "AgentRegistered" →
      (e.data.get ("bytes")).bind Json.asStr = none →
      parse_agent_registered_event to_ss58check (e :: rest) =
        parse_agent_registered_event to_ss58check rest) ∧
    (e.pallet = "Agents" → e.variant = "AgentRegistered" →
      (e.data.get ("bytes")).bind Json.asStr = some hx → hexDecode hx = some bs →
      bs.length < 32 →
      parse_agent_registered_event to_ss58check (e :: rest) =
        parse_agent_registered_event to_ss58check rest) ∧
    (e.pallet = "Agents" → e.variant = "AgentCallQueued" →
      (e.data.get ("bytes")).bind Json.asStr = some hx → hexDecode hx = none →
      parse_agent_call_queued_event (e :: rest) = none) ∧
    (e.pallet = "Agents" → e.variant = "AgentCallQueued" →
      (e.data.get ("bytes")).bind Json.asStr = none →
      parse_agent_call_queued_event (e :: rest) =
        parse_agent_call_queued_event rest) ∧
    (e.pallet = "Agents" → e.variant = "AgentCallQueued" →
      (e.data.get ("bytes")).bind Json.asStr = some hx → hexDecode hx = some bs →
      bs.length < 8 →
      parse_agent_call_queued_event (e :: rest) =
        parse_agent_call_queued_event rest) := by
  refine ⟨?_, ?_, ?_, ?_, ?_, ?_⟩
  · intro hp hv hs hd
    simp [parse_agent_registered_event, hp, hv, hs, hd]
  · intro hp hv hs
    simp [parse_agent_registered_event, hp, hv, hs]
  · intro hp hv hs hd hlen
    simp [parse_agent_registered_event, hp, hv, hs, hd, Nat.not_le.mpr hlen]
  · intro hp hv hs hd
    simp [parse_agent_call_queued_event, hp, hv, hs, hd]
  · intro hp hv hs
    simp [parse_agent_call_queued_event, hp, hv, hs]
  · intro hp hv hs hd hlen
    simp [parse_agent_call_queued_event, hp, hv, hs, hd, Nat.not_le.mpr hlen]

/-- A matching AgentRegistered event whose `bytes` value is not valid hex. -/
def evRegBadHex : ChainEvent :=
  { pallet := "Agents", variant := "AgentRegistered"
    data := Json.obj [ ("bytes", Json.str "zz") ] }

/-- Witness for C9: the bad-hex registration event aborts the scan with `none` even
though a perfectly valid matching event follows it. -/
theorem parsers_error_handling_witness :
    parse_agent_registered_event wSs58 (evRegBadHex :: [evRegZero]) = none :=
  (parsers_error_handling wSs58 evRegBadHex [evRegZero] ("zz") []).1
    (by decide) (by decide) (by decide) (by decide)

/-- C8: in both submission flows, malformed call-data hex fails with the call-data
decode message, and a genesis hash that fails to decode or does not decode to exactly
32 bytes fails with the genesis-hash message — in each case for every keypair (and
whatever the wallet returned), so no signing happens and no extrinsic is built. -/
theorem submission_decode_failures (blake2_256 : List Nat → List Nat)
    (call_data_hex genesis_hash : String)
    (nonce spec_version transaction_version : Nat)
    (keypair_result : Except String Keypair) :
    (hexDecode (String.mk (trimStart0x call_data_hex.data)) = none →
      start_prompt_submission blake2_256 call_data_hex genesis_hash nonce
          spec_version transaction_version keypair_result =
        SubmitOutcome.failed ("Invalid call data") ∧
      start_deploy_submission blake2_256 call_data_hex genesis_hash nonce
          spec_version transaction_version keypair_result =
        SubmitOutcome.failed ("Invalid call data")) ∧
    (∀ cd : List Nat, hexDecode (String.mk (trimStart0x call_data_hex.data)) = some cd →
      (hexDecode (String.mk (trimStart0x genesis_hash.data)) = none ∨
        ∃ d : List Nat, hexDecode (String.mk (trimStart0x genesis_hash.data)) = some d ∧
          d.length ≠ 32) →
      start_prompt_submission blake2_256 call_data_hex genesis_hash nonce
          spec_version transaction_version keypair_result =
        SubmitOutcome.failed ("Invalid genesis hash") ∧
      start_deploy_submission blake2_256 call_data_hex genesis_hash nonce
          spec_version transaction_version keypair_result =
        SubmitOutcome.failed ("Invalid genesis hash")) := by
  constructor
  · intro hcd
    constructor
    · simp [start_prompt_submission, hcd]
    · simp [start_deploy_submission, hcd]
  · intro cd hcd hg
    rcases hg with hnone | ⟨d, hd, hlen⟩
    · constructor
      · simp [start_prompt_submission, hcd, hnone]
      · simp [start_deploy_submission, hcd, hnone]
    · constructor
      · simp [start_prompt_submission, hcd, hd, hlen]
      · simp [start_deploy_submission, hcd, hd, hlen]

/-- Witness for C8: invalid call-data hex `0xzz`, and a well-formed but 2-byte
genesis hash `0x0011`, each fail with the right message in both flows. -/
theorem submission_decode_failures_witness :
    (start_prompt_submission wBlake ("0xzz") ("0x00") 0 1 1 (Except.ok wKeypair) =
        SubmitOutcome.failed ("Invalid call data") ∧
      start_deploy_submission wBlake ("0xzz") ("0x00") 0 1 1 (Except.ok wKeypair) =
        SubmitOutcome.failed ("Invalid call data")) ∧
    (start_prompt_submission wBlake ("0x00") ("0x0011") 0 1 1 (Except.ok wKeypair) =
        SubmitOutcome.failed ("Invalid genesis hash") ∧
      start_deploy_submission wBlake ("0x00") ("0x0011") 0 1 1 (Except.ok wKeypair) =
        SubmitOutcome.failed ("Invalid genesis hash")) :=
  ⟨(submission_decode_failures wBlake ("0xzz") ("0x00") 0 1 1
      (Except.ok wKeypair)).1 (by decide),
   (submission_decode_failures wBlake ("0x00") ("0x0011") 0 1 1
      (Except.ok wKeypair)).2 [0] (by decide)
      (Or.inr ⟨[0, 17], by decide, by decide⟩)⟩
